import Mathlib

/-!
Shallow embedding of the car_picker core (parser, indexer, choice
generation, scoring, quiz engine) together with proofs of the spec
claims.  Python mutable state is passed explicitly, Python `int` is
`Int`, Python `float` point values are modelled as exact rationals
(every literal and sum arising in scoring is exactly representable as
a double, so the rational model agrees with the runtime values), and
fallible code returns `Option` / `Except`.  The `random.Random`
capability is modelled as an explicitly passed function; theorems
quantify over all of its behaviours (for shuffles, all functions that
permute their input).
-/

namespace CarPicker

/-- Quiz precision modes, from `models.QuizMode`. -/
inductive QuizMode where
  | make
  | make_model
  | make_model_year
deriving DecidableEq, Repr

/-- A filesystem path, identified with its textual form.  Python
`pathlib.Path(s)` round-trips with `str`, so a path value is modelled
by its string. -/
structure Path where
  raw : String
deriving DecidableEq, Repr

/-- Python `str.split(sep)` with a one-character separator, over the
character list: separators are kept as boundaries, so empty fields are
preserved and the empty string splits to one empty field. -/
def splitChar (sep : Char) : List Char → List (List Char)
  | [] => [[]]
  | c :: rest =>
    match splitChar sep rest with
    | [] => [[c]]
    | t :: ts => if c = sep then [] :: t :: ts else (c :: t) :: ts

/-- Python `str.split(sep)` with a one-character separator. -/
def pySplit (sep : Char) (s : String) : List String :=
  (splitChar sep s.toList).map (fun cs => String.mk cs)

/-- Final path component: everything after the last slash. -/
def Path.name (p : Path) : String :=
  (pySplit '/' p.raw).getLastD p.raw

/-- Index of the last dot of a character list, if any. -/
def lastDotIdx (cs : List Char) : Option Nat :=
  match cs.reverse.findIdx? (fun c => c == '.') with
  | none => none
  | some rj => some (cs.length - 1 - rj)

/-- Filename stem, mirroring `pathlib.PurePath.stem`: the name with its
final extension removed, where an extension exists only when the last
dot is at position `0 < i < len - 1`. -/
def Path.stem (p : Path) : String :=
  let n := p.name
  let cs := n.toList
  match lastDotIdx cs with
  | none => n
  | some i => if 0 < i ∧ i < cs.length - 1 then String.mk (cs.take i) else n

/-- Metadata for a single car image, from `models.CarImage`.  The
`specs` ordered mapping is an association list (Python preserves dict
insertion order; its keys are the distinct spec keys). -/
structure CarImage where
  id : String
  path : Path
  make : String
  model : String
  year : Int
  random_id : String
  specs : List (String × String)
deriving DecidableEq, Repr

/-- An answer option for a quiz question, from `models.AnswerChoice`. -/
structure AnswerChoice where
  id : String
  label : String
  car : CarImage
deriving DecidableEq, Repr

/-- The ordered spec keys of `parser.SPEC_KEYS`. -/
def SPEC_KEYS : List String :=
  ["make", "model", "year", "msrp", "front_wheel_size_in", "sae_net_hp_rpm",
   "displacement", "engine_type", "width_in", "height_in", "length_in",
   "gas_mileage", "drivetrain", "passenger_capacity", "passenger_doors",
   "body_style"]

/-- `parser.TOKEN_COUNT`: the sixteen spec keys plus the random suffix. -/
def TOKEN_COUNT : Nat := SPEC_KEYS.length + 1

/-- Python `int(s)` on a string with no underscores: strip surrounding
whitespace, allow one optional sign, then require at least one digit.
Returns `none` where Python raises `ValueError`. -/
def pythonInt? (s : String) : Option Int :=
  let cs := s.toList.dropWhile Char.isWhitespace
  let cs := (cs.reverse.dropWhile Char.isWhitespace).reverse
  match cs with
  | [] => none
  | c :: rest =>
    let signed : Bool × List Char :=
      if c = '-' then (true, rest)
      else if c = '+' then (false, rest)
      else (false, c :: rest)
    let digits := signed.2
    if digits.isEmpty || !(digits.all Char.isDigit) then none
    else
      let n : Nat := digits.foldl (fun acc d => 10 * acc + (d.toNat - '0'.toNat)) 0
      some (if signed.1 then -(n : Int) else (n : Int))

/-- `parser.parse_filename`: decode one filename into a `CarImage`, or
`none` when the stem has too few tokens or the year token is not an
integer.  The dictionary lookups of `specs["make"]` etc. are modelled
with `List.lookup`; the `getD ""` defaults are unreachable because the
first three spec keys are always zipped against present tokens. -/
def parse_filename (path : Path) : Option CarImage :=
  let stem := path.stem
  let parts := pySplit '_' stem
  if parts.length < TOKEN_COUNT then none
  else
    let specs_raw := parts.take SPEC_KEYS.length
    let random_id := parts.getD SPEC_KEYS.length ""
    let specs := SPEC_KEYS.zip specs_raw
    let make := (specs.lookup "make").getD ""
    let model := (specs.lookup "model").getD ""
    let year_str := (specs.lookup "year").getD ""
    match pythonInt? year_str with
    | none => none
    | some year =>
      some { id := stem, path := path, make := make, model := model,
             year := year, random_id := random_id, specs := specs }

/-- Result of `os.stat` on a file: the fields the digest reads. -/
structure FileStat where
  mtime_ns : Int
  size : Int
deriving DecidableEq, Repr

/-- Path ordering used by Python `sorted` over paths: modelled as the
lexicographic order of the textual form. -/
def pathLe (p q : Path) : Prop := p.raw ≤ q.raw

instance : DecidableRel pathLe := fun p q => inferInstanceAs (Decidable (p.raw ≤ q.raw))

/-- One digest entry `f"{path}:{mtime_ns}:{size}"`, or `none` when the
file vanished between enumeration and `stat` (the entry is skipped). -/
def digest_entry (stat : Path → Option FileStat) (p : Path) : Option String :=
  (stat p).map (fun st => p.raw ++ ":" ++ toString st.mtime_ns ++ ":" ++ toString st.size)

/-- `indexer._compute_digest`, modelled up to the hash function: the
value is the exact byte stream fed into the md5 hasher (equal streams
hash equally, so every equation proved about this stream holds of the
hex digest as well).  The filesystem is the explicit `stat` capability. -/
def _compute_digest (stat : Path → Option FileStat) (paths : List Path) : String :=
  String.join ((paths.insertionSort pathLe).filterMap (digest_entry stat))

/-- Append a value to the group of key `k`, mirroring one
`defaultdict(list)` element append: the first entry with that key is
extended, and a missing key is appended at the end (Python dicts keep
key insertion order). -/
def updateGroup {K : Type} [DecidableEq K] (d : List (K × List CarImage)) (k : K)
    (v : CarImage) : List (K × List CarImage) :=
  match d with
  | [] => [(k, [v])]
  | (k', vs) :: rest =>
    if k' = k then (k', vs ++ [v]) :: rest else (k', vs) :: updateGroup rest k v

/-- Build the grouping dictionary of `_build_dataset_index`. -/
def buildGroups {K : Type} [DecidableEq K] (key : CarImage → K)
    (records : List CarImage) : List (K × List CarImage) :=
  records.foldl (fun d r => updateGroup d (key r) r) []

/-- Dictionary lookup with the `dict.get(k, [])` default used by the
index accessors. -/
def lookupGroup {K : Type} [DecidableEq K] (d : List (K × List CarImage)) (k : K) :
    List CarImage :=
  match d.find? (fun p => decide (p.1 = k)) with
  | some p => p.2
  | none => []

/-- `indexer.DatasetIndex`: record list plus the two derived grouping
dictionaries (the directories are carried as plain strings; thumbnail
generation is an external collaborator and is not modelled). -/
structure DatasetIndex where
  records : List CarImage
  cache_dir : String
  thumb_dir : String
  by_make : List (String × List CarImage)
  by_make_model : List ((String × String) × List CarImage)
deriving DecidableEq, Repr

/-- `DatasetIndex.get_random_pool`. -/
def DatasetIndex.get_random_pool (idx : DatasetIndex) : List CarImage := idx.records

/-- `DatasetIndex.get_by_make`. -/
def DatasetIndex.get_by_make (idx : DatasetIndex) (mk : String) : List CarImage :=
  lookupGroup idx.by_make mk

/-- `DatasetIndex.get_by_make_model`. -/
def DatasetIndex.get_by_make_model (idx : DatasetIndex) (mk md : String) : List CarImage :=
  lookupGroup idx.by_make_model (mk, md)

/-- `indexer._build_dataset_index`: group the records by make and by
(make, model). -/
def _build_dataset_index (records : List CarImage) (cache_dir thumb_dir : String) :
    DatasetIndex :=
  { records := records
    cache_dir := cache_dir
    thumb_dir := thumb_dir
    by_make := buildGroups (fun r => r.make) records
    by_make_model := buildGroups (fun r => (r.make, r.model)) records }

/-- One serialized record object of the cache file, with the JSON
types of §6 of the spec (JSON represents these strings and ints
exactly). -/
structure RecordJson where
  id : String
  path : String
  make : String
  model : String
  year : Int
  random_id : String
  specs : List (String × String)
deriving DecidableEq, Repr

/-- The persisted cache payload of `DatasetIndex.to_json_serializable`. -/
structure CachePayload where
  version : Int
  digest : String
  records : List RecordJson
deriving DecidableEq, Repr

/-- `DatasetIndex.to_json_serializable`. -/
def DatasetIndex.to_json_serializable (idx : DatasetIndex) (digest : String) :
    CachePayload :=
  { version := 1
    digest := digest
    records := idx.records.map (fun car =>
      { id := car.id, path := car.path.raw, make := car.make, model := car.model,
        year := car.year, random_id := car.random_id, specs := car.specs }) }

/-- The cache-hit branch of `indexer.load_index`: accept the payload
only when its version is 1, its digest equals the freshly computed
digest, and its record list is non-empty; `none` means the branch
falls through to a full rebuild.  `int(entry["year"])` on the already
integral JSON value is the identity, and the `entry.get` defaults for
`random_id` and `specs` never fire on payloads written by
`to_json_serializable`, so the fields are read back directly. -/
def load_from_cache (payload : CachePayload) (digest : String)
    (cache_dir thumb_dir : String) : Option DatasetIndex :=
  if payload.version = 1 ∧ payload.digest = digest then
    let records := payload.records.map (fun entry =>
      ({ id := entry.id, path := { raw := entry.path }, make := entry.make,
         model := entry.model, year := entry.year, random_id := entry.random_id,
         specs := entry.specs } : CarImage))
    if records.isEmpty then none
    else some (_build_dataset_index records cache_dir thumb_dir)
  else none

/-- `models.ScoreDetail`, with point values as exact rationals. -/
structure ScoreDetail where
  points : ℚ
  max_points : ℚ
  make_correct : Bool
  model_correct : Bool
  year_correct : Bool
  mode : QuizMode
deriving DecidableEq, Repr

/-- The point accumulation of `engine._compute_score`, written with the
nested conditionals of the source (`points` starts at 0.0 and each
satisfied tier adds its increment). -/
def pointsFor (mode : QuizMode) (make_correct model_correct year_correct : Bool) : ℚ :=
  match mode with
  | QuizMode.make => if make_correct then 1.0 else 0.0
  | QuizMode.make_model =>
    if make_correct then
      if model_correct then 0.0 + 0.5 + 0.5 else 0.0 + 0.5
    else 0.0
  | QuizMode.make_model_year =>
    if make_correct then
      if model_correct then
        if year_correct then 0.0 + 0.3 + 0.4 + 0.3 else 0.0 + 0.3 + 0.4
      else 0.0 + 0.3
    else 0.0

/-- `engine._compute_score`. -/
def _compute_score (correct guess : CarImage) (mode : QuizMode) : ScoreDetail :=
  let make_correct := guess.make == correct.make
  let model_correct := make_correct && (guess.model == correct.model)
  let year_correct := model_correct && (guess.year == correct.year)
  { points := pointsFor mode make_correct model_correct year_correct
    max_points := 1.0
    make_correct := make_correct
    model_correct := model_correct
    year_correct := year_correct
    mode := mode }

/-- `options.format_label`. -/
def format_label (car : CarImage) (mode : QuizMode) : String :=
  match mode with
  | QuizMode.make => car.make
  | QuizMode.make_model => car.make ++ " " ++ car.model
  | QuizMode.make_model_year => car.make ++ " " ++ car.model ++ " " ++ toString car.year

/-- The mutable loop state of `generate_choices`: collected
distractors plus the two bookkeeping sets. -/
structure GenState where
  distractors : List CarImage
  seen_ids : Finset String
  seen_labels : Finset String

/-- The inner loop of `generate_choices` over one (already shuffled)
candidate pool: greedily accept candidates with a fresh display label
until `total_choices - 1` distractors are collected.  Since
`total_choices ≥ 2`, the Python comparison with `total_choices - 1` is
the comparison with the natural number `m`. -/
def take_pool (mode : QuizMode) (m : Nat) (st : GenState) : List CarImage → GenState
  | [] => st
  | car :: rest =>
    if st.distractors.length ≥ m then st
    else
      let label := format_label car mode
      if label ∈ st.seen_labels then take_pool mode m st rest
      else
        take_pool mode m
          { distractors := st.distractors ++ [car]
            seen_ids := insert car.id st.seen_ids
            seen_labels := insert label st.seen_labels } rest

/-- The outer loop of `generate_choices` over the tiered pools: each
pool is shuffled by the injected random source (call number `k`), then
consumed by `take_pool`; the loop stops early once the quota is met. -/
def run_pools (mode : QuizMode) (m : Nat) (st : GenState)
    (shuffle : Nat → List CarImage → List CarImage) (k : Nat) :
    List (List CarImage) → GenState
  | [] => st
  | pool :: rest =>
    let st := take_pool mode m st (shuffle k pool)
    if st.distractors.length ≥ m then st
    else run_pools mode m st shuffle (k + 1) rest

/-- The final fallback loop of `generate_choices`: fill remaining
slots ignoring label uniqueness (ids were already filtered). -/
def fill_remaining (m : Nat) (st : GenState) : List CarImage → GenState
  | [] => st
  | car :: rest =>
    if st.distractors.length ≥ m then st
    else
      fill_remaining m
        { distractors := st.distractors ++ [car]
          seen_ids := insert car.id st.seen_ids
          seen_labels := st.seen_labels } rest

/-- The tiered distractor pools of `generate_choices`, built while the
seen-id set still holds only the correct id (list comprehensions in
the source evaluate eagerly at that point). -/
def tier_pools (correct : CarImage) (index : DatasetIndex) (mode : QuizMode) :
    List (List CarImage) :=
  let seen_ids : Finset String := {correct.id}
  match mode with
  | QuizMode.make_model_year =>
    [(index.get_by_make_model correct.make correct.model).filter
       (fun car => decide (car.id ∉ seen_ids ∧ car.year ≠ correct.year)),
     (index.get_by_make correct.make).filter
       (fun car => decide (car.id ∉ seen_ids ∧
         (car.model ≠ correct.model ∨ car.year ≠ correct.year)))]
  | QuizMode.make_model =>
    [(index.get_by_make_model correct.make correct.model).filter
       (fun car => decide (car.id ∉ seen_ids ∧ car.year ≠ correct.year)),
     (index.get_by_make correct.make).filter
       (fun car => decide (car.id ∉ seen_ids ∧ car.model ≠ correct.model))]
  | QuizMode.make =>
    [index.get_random_pool.filter
       (fun car => decide (car.id ∉ seen_ids ∧ car.make ≠ correct.make))]

/-- The full pool sequence of `generate_choices`: tiered pools
followed by the whole-dataset pool. -/
def gen_pools (correct : CarImage) (index : DatasetIndex) (mode : QuizMode) :
    List (List CarImage) :=
  tier_pools correct index mode ++
    [index.get_random_pool.filter
      (fun car => decide (car.id ∉ ({correct.id} : Finset String)))]

/-- The collection state after the tier loop of `generate_choices`. -/
def gen_tier_state (correct : CarImage) (index : DatasetIndex) (mode : QuizMode)
    (m : Nat) (shuffle : Nat → List CarImage → List CarImage) : GenState :=
  run_pools mode m ⟨[], {correct.id}, {format_label correct mode}⟩ shuffle 0
    (gen_pools correct index mode)

/-- The collection state after the final fallback loop of
`generate_choices` (ids were already excluded, labels are ignored). -/
def gen_fallback_state (correct : CarImage) (index : DatasetIndex) (mode : QuizMode)
    (m : Nat) (shuffle : Nat → List CarImage → List CarImage) : GenState :=
  let st := gen_tier_state correct index mode m shuffle
  if st.distractors.length < m then
    let remaining :=
      index.get_random_pool.filter (fun car => decide (car.id ∉ st.seen_ids))
    fill_remaining m st (shuffle (gen_pools correct index mode).length remaining)
  else st

/-- `options.generate_choices`.  The random source is the injected
`shuffle` capability: call `k` of the run permutes the list it is
given (tier pools first, then the fallback pool, then the assembled
choice list).  Since `total_choices ≥ 2` past the guard, the Python
comparisons against `total_choices - 1` are comparisons against the
natural number `m`. -/
def generate_choices (correct : CarImage) (index : DatasetIndex) (mode : QuizMode)
    (total_choices : Int) (shuffle : Nat → List CarImage → List CarImage) :
    Except String (List AnswerChoice) :=
  if total_choices < 2 then Except.error "total_choices must be at least 2." else
  let m : Nat := (total_choices - 1).toNat
  let st := gen_fallback_state correct index mode m shuffle
  let choices := correct :: st.distractors.take m
  let choices := shuffle ((gen_pools correct index mode).length + 1) choices
  Except.ok (choices.map (fun car =>
    { id := car.id, label := format_label car mode, car := car }))

/-- The `for _ in range(256)` retry loop of `engine._select_car`: draw
a candidate from the injected random source (modelled as a function
from the remaining fuel and the pool) and accept it when its id is
unused. -/
def try_random (choice : Nat → List CarImage → CarImage) (pool : List CarImage)
    (used : Finset String) : Nat → Option CarImage
  | 0 => none
  | fuel + 1 =>
    let candidate := choice fuel pool
    if candidate.id ∈ used then try_random choice pool used fuel
    else some candidate

/-- `engine._select_car`, with the session used-id set passed in and
the (possibly cleared) set returned alongside the selected record.
`rng.choice` is the injected `choice` capability. -/
def _select_car (choice : Nat → List CarImage → CarImage) (pool : List CarImage)
    (used0 : Finset String) : Except String (CarImage × Finset String) :=
  if pool.isEmpty then Except.error "Dataset index is empty."
  else
    let used := if (pool.length : Int) - (used0.card : Int) ≤ 0 then (∅ : Finset String)
      else used0
    match try_random choice pool used 256 with
    | some car => Except.ok (car, used)
    | none =>
      match pool.find? (fun c => decide (c.id ∉ used)) with
      | some car => Except.ok (car, used)
      | none => Except.error "Unable to select a new car for the question."

/-- `models.QuizQuestion`. -/
structure QuizQuestion where
  number : Int
  car : CarImage
  choices : List AnswerChoice
deriving DecidableEq, Repr

/-- `models.QuestionResult`. -/
structure QuestionResult where
  question : QuizQuestion
  selected_choice : AnswerChoice
  score : ScoreDetail
deriving DecidableEq, Repr

/-- `models.QuizState`.  Timestamps are rationals and wall-clock reads
are passed in explicitly; the `rng` object itself is a capability
handed to the individual operations, so only its seed is state. -/
structure QuizState where
  mode : QuizMode
  total_questions : Int
  duration_seconds : Int
  used_ids : Finset String
  history : List QuestionResult
  current_question : Option QuizQuestion
  score : ℚ
  start_time : Option ℚ
  completed : Bool
  rng_seed : Option Int
deriving DecidableEq

/-- `engine._find_choice`. -/
def _find_choice (question : QuizQuestion) (choice_id : String) : Option AnswerChoice :=
  question.choices.find? (fun c => c.id == choice_id)

/-- `engine.is_time_up`, with the current wall-clock time `now` passed
in explicitly. -/
def is_time_up (now : ℚ) (state : QuizState) : Bool :=
  match state.start_time with
  | none => false
  | some t => decide ((state.duration_seconds : ℚ) ≤ now - t)

/-- `engine.submit_answer`, as a state transformer: the pair holds the
raised-or-returned `ScoreDetail` and the state after the call (the
Python code mutates `state` in place only after both validity checks
pass, so the error branches return the input state unchanged). -/
def submit_answer (now : ℚ) (state : QuizState) (choice_id : String) :
    Except String ScoreDetail × QuizState :=
  match state.current_question with
  | none => (Except.error "No active question to submit.", state)
  | some q =>
    match _find_choice q choice_id with
    | none => (Except.error "Selected choice not found in current question.", state)
    | some selected =>
      let correct_car := q.car
      let score_detail := _compute_score correct_car selected.car state.mode
      let st1 : QuizState := { state with score := state.score + score_detail.points }
      let result : QuestionResult :=
        { question := q, selected_choice := selected, score := score_detail }
      let st2 : QuizState :=
        { st1 with history := st1.history ++ [result], current_question := none }
      let st3 : QuizState :=
        if (st2.history.length : Int) ≥ st2.total_questions ∨ is_time_up now st2 then
          { st2 with completed := true }
        else st2
      (Except.ok score_detail, st3)

/-- Invariant of the distractor-collection loop of `generate_choices`:
collected distractors come from the dataset, their ids are distinct
and differ from the correct id, every collected label has been
recorded, the seen-id set is exactly the correct id plus the collected
ids, and the quota is never exceeded. -/
structure GenInv (records : List CarImage) (correct : CarImage) (mode : QuizMode)
    (m : Nat) (st : GenState) : Prop where
  mem : ∀ d ∈ st.distractors, d ∈ records
  nodup : (st.distractors.map CarImage.id).Nodup
  ids_ne : ∀ d ∈ st.distractors, d.id ≠ correct.id
  labels_mem : ∀ d ∈ st.distractors, format_label d mode ∈ st.seen_labels
  ids_eq : st.seen_ids = insert correct.id (st.distractors.map CarImage.id).toFinset
  len_le : st.distractors.length ≤ m

/-- Demo record used by the witness theorems. -/
def hondaCivic2015 : CarImage :=
  { id := "h2015", path := { raw := "h2015.jpg" }, make := "Honda", model := "Civic",
    year := 2015, random_id := "s1", specs := [] }

/-- Second demo record: same make and model, different year. -/
def hondaCivic2016 : CarImage :=
  { id := "h2016", path := { raw := "h2016.jpg" }, make := "Honda", model := "Civic",
    year := 2016, random_id := "s2", specs := [] }

/-- Demo index over the two demo records. -/
def demoIndex : DatasetIndex :=
  _build_dataset_index [hondaCivic2015, hondaCivic2016] "cache" "thumbs"

/-- Demo paths and stat capability for the digest witness. -/
def pathA : Path := { raw := "a.jpg" }

/-- Second demo path. -/
def pathB : Path := { raw := "b.jpg" }

/-- Demo stat capability: every file exists with fixed metadata. -/
def demoStat : Path → Option FileStat := fun _ => some { mtime_ns := 1, size := 2 }

/-- Demo quiz state with no active question. -/
def demoState : QuizState :=
  { mode := QuizMode.make, total_questions := 10, duration_seconds := 600,
    used_ids := ∅, history := [], current_question := none, score := 0,
    start_time := none, completed := false, rng_seed := none }

/-- Demo dataset filename with the full seventeen-token schema. -/
def demoPath : Path :=
  { raw := "Ford_Focus_2012_t4_t5_t6_t7_t8_t9_t10_t11_t12_t13_t14_t15_t16_a1b2.jpg" }

/-- The record that `parse_filename` produces on the demo filename. -/
def demoParsed : CarImage :=
  { id := "Ford_Focus_2012_t4_t5_t6_t7_t8_t9_t10_t11_t12_t13_t14_t15_t16_a1b2",
    path := demoPath, make := "Ford", model := "Focus", year := 2012,
    random_id := "a1b2",
    specs := [("make", "Ford"), ("model", "Focus"), ("year", "2012"), ("msrp", "t4"),
      ("front_wheel_size_in", "t5"), ("sae_net_hp_rpm", "t6"), ("displacement", "t7"),
      ("engine_type", "t8"), ("width_in", "t9"), ("height_in", "t10"),
      ("length_in", "t11"), ("gas_mileage", "t12"), ("drivetrain", "t13"),
      ("passenger_capacity", "t14"), ("passenger_doors", "t15"),
      ("body_style", "t16")] }

theorem lookupGroup_cons {K : Type} [DecidableEq K] (k0 : K) (vs : List CarImage)
    (rest : List (K × List CarImage)) (k : K) :
    lookupGroup ((k0, vs) :: rest) k = if k0 = k then vs else lookupGroup rest k := by
  by_cases h : k0 = k <;> simp [lookupGroup, List.find?, h]

theorem lookupGroup_updateGroup {K : Type} [DecidableEq K]
    (d : List (K × List CarImage)) (k k' : K) (v : CarImage) :
    lookupGroup (updateGroup d k' v) k =
      if k' = k then lookupGroup d k ++ [v] else lookupGroup d k := by
  induction d with
  | nil =>
    by_cases h : k' = k <;> simp [updateGroup, lookupGroup_cons, lookupGroup, h]
  | cons p rest ih =>
    obtain ⟨k0, vs⟩ := p
    by_cases h0 : k0 = k'
    · subst h0
      by_cases h : k0 = k <;> simp [updateGroup, lookupGroup_cons, h]
    · by_cases h : k0 = k
      · subst h
        have hk : ¬ k' = k0 := fun e => h0 e.symm
        simp [updateGroup, h0, lookupGroup_cons, hk]
      · simp [updateGroup, h0, lookupGroup_cons, h, ih]

theorem lookupGroup_foldl {K : Type} [DecidableEq K] (key : CarImage → K)
    (l : List CarImage) (d : List (K × List CarImage)) (k : K) :
    lookupGroup (l.foldl (fun d r => updateGroup d (key r) r) d) k
      = lookupGroup d k ++ l.filter (fun r => decide (key r = k)) := by
  induction l generalizing d with
  | nil => simp
  | cons r rest ih =>
    simp only [List.foldl_cons, ih, lookupGroup_updateGroup, List.filter_cons]
    by_cases h : key r = k <;> simp [h]

theorem lookupGroup_buildGroups {K : Type} [DecidableEq K] (key : CarImage → K)
    (records : List CarImage) (k : K) :
    lookupGroup (buildGroups key records) k
      = records.filter (fun r => decide (key r = k)) := by
  simpa [lookupGroup] using lookupGroup_foldl key records [] k

/-- Claim C7: the built index places every record in exactly the group
of its own make (respectively its own make and model pair) and in no
other group, preserving the original insertion order: each group is
precisely the in-order sublist of records whose key matches. -/
theorem claim7_grouping (records : List CarImage) (cd td : String) (mk md : String) :
    (_build_dataset_index records cd td).get_by_make mk
        = records.filter (fun r => decide (r.make = mk))
    ∧ (_build_dataset_index records cd td).get_by_make_model mk md
        = records.filter (fun r => decide (r.make = mk ∧ r.model = md)) := by
  constructor
  · simpa [DatasetIndex.get_by_make, _build_dataset_index] using
      lookupGroup_buildGroups (fun r => r.make) records mk
  · rw [DatasetIndex.get_by_make_model, _build_dataset_index,
      lookupGroup_buildGroups (fun r => (r.make, r.model)) records (mk, md)]
    apply List.filter_congr
    intro r _
    simp [Prod.ext_iff]

/-- Claim C2: the correctness flags of a score are strictly
hierarchical (year implies model implies make) and the maximum
attainable points are always 1.0, for every pair of records and every
mode. -/
theorem claim2_score_hierarchy (correct guess : CarImage) (mode : QuizMode) :
    ((_compute_score correct guess mode).year_correct = true →
        (_compute_score correct guess mode).model_correct = true)
    ∧ ((_compute_score correct guess mode).model_correct = true →
        (_compute_score correct guess mode).make_correct = true)
    ∧ (_compute_score correct guess mode).max_points = 1 := by
  refine ⟨?_, ?_, by norm_num [_compute_score]⟩ <;>
    · simp only [_compute_score, Bool.and_eq_true]
      intro h
      try exact h.1
      try exact h.1.1

theorem claim2_witness :
    (_compute_score hondaCivic2015 hondaCivic2016 QuizMode.make_model_year).make_correct = true
    ∧ (_compute_score hondaCivic2015 hondaCivic2016 QuizMode.make_model_year).max_points = 1 :=
  ⟨(claim2_score_hierarchy hondaCivic2015 hondaCivic2016 QuizMode.make_model_year).2.1
      (by decide),
   (claim2_score_hierarchy hondaCivic2015 hondaCivic2016 QuizMode.make_model_year).2.2⟩

/-- Claim C3: in mode make+model+year the points are 0.3 when only the
make matches, 0.7 when make and model match but not the year, and 1.0
when the year matches as well (the Honda Civic 2015 versus 2016
example is the witness below). -/
theorem claim3_points_table (correct guess : CarImage) :
    ((_compute_score correct guess QuizMode.make_model_year).make_correct = true →
      (_compute_score correct guess QuizMode.make_model_year).model_correct = false →
      (_compute_score correct guess QuizMode.make_model_year).points = 0.3)
    ∧ ((_compute_score correct guess QuizMode.make_model_year).model_correct = true →
      (_compute_score correct guess QuizMode.make_model_year).year_correct = false →
      (_compute_score correct guess QuizMode.make_model_year).points = 0.7)
    ∧ ((_compute_score correct guess QuizMode.make_model_year).year_correct = true →
      (_compute_score correct guess QuizMode.make_model_year).points = 1.0) := by
  by_cases hmk : guess.make = correct.make <;>
    by_cases hmd : guess.model = correct.model <;>
      by_cases hyr : guess.year = correct.year <;>
        simp [_compute_score, pointsFor, hmk, hmd, hyr] <;> norm_num

theorem claim3_witness :
    (_compute_score hondaCivic2015 hondaCivic2016 QuizMode.make_model_year).points = 0.7
    ∧ (_compute_score hondaCivic2015 hondaCivic2016 QuizMode.make_model_year).make_correct = true
    ∧ (_compute_score hondaCivic2015 hondaCivic2016 QuizMode.make_model_year).model_correct = true
    ∧ (_compute_score hondaCivic2015 hondaCivic2016 QuizMode.make_model_year).year_correct = false :=
  ⟨(claim3_points_table hondaCivic2015 hondaCivic2016).2.1 (by decide) (by decide),
   by decide, by decide, by decide⟩

/-- Claim C8: `generate_choices` fails, with exactly the
invalid-choice-count error, precisely when fewer than two total
choices are requested; for two or more it always returns a result. -/
theorem claim8_invalid_choice_count (correct : CarImage) (index : DatasetIndex)
    (mode : QuizMode) (total_choices : Int)
    (shuffle : Nat → List CarImage → List CarImage) :
    (total_choices < 2 →
      generate_choices correct index mode total_choices shuffle
        = Except.error "total_choices must be at least 2.")
    ∧ (2 ≤ total_choices →
      ∃ choices, generate_choices correct index mode total_choices shuffle
        = Except.ok choices) := by
  constructor
  · intro h
    simp [generate_choices, h]
  · intro h
    rw [generate_choices, if_neg (by omega)]
    exact ⟨_, rfl⟩

theorem claim8_witness :
    generate_choices hondaCivic2015 demoIndex QuizMode.make 1 (fun _ l => l)
      = Except.error "total_choices must be at least 2."
    ∧ ∃ choices, generate_choices hondaCivic2015 demoIndex QuizMode.make 2 (fun _ l => l)
      = Except.ok choices :=
  ⟨(claim8_invalid_choice_count hondaCivic2015 demoIndex QuizMode.make 1 (fun _ l => l)).1
      (by decide),
   (claim8_invalid_choice_count hondaCivic2015 demoIndex QuizMode.make 2 (fun _ l => l)).2
      (by decide)⟩

/-- Claim C10: `submit_answer` is atomic on error: with no active
question, or with a choice id matching none of the current choices,
it returns the corresponding error and the state completely
unchanged. -/
theorem claim10_submit_atomic (now : ℚ) (state : QuizState) (choice_id : String) :
    (state.current_question = none →
      submit_answer now state choice_id
        = (Except.error "No active question to submit.", state))
    ∧ (∀ q, state.current_question = some q →
      (∀ c ∈ q.choices, c.id ≠ choice_id) →
      submit_answer now state choice_id
        = (Except.error "Selected choice not found in current question.", state)) := by
  constructor
  · intro h
    simp [submit_answer, h]
  · intro q hq hnone
    have hfind : _find_choice q choice_id = none := by
      rw [_find_choice, List.find?_eq_none]
      intro c hc
      simpa using hnone c hc
    simp [submit_answer, hq, hfind]

theorem claim10_witness :
    submit_answer 0 demoState "c1"
      = (Except.error "No active question to submit.", demoState) :=
  (claim10_submit_atomic 0 demoState "c1").1 rfl

/-- Claim C6: serializing a built index and reading it back on the
cache-hit path of `load_index` reconstructs the record list (and hence
the rebuilt index) field for field, for every non-empty record list
and any digest. -/
theorem claim6_cache_roundtrip (records : List CarImage) (cd td cd2 td2 dg : String)
    (h : records ≠ []) :
    load_from_cache ((_build_dataset_index records cd td).to_json_serializable dg)
        dg cd2 td2
      = some (_build_dataset_index records cd2 td2) := by
  have hmap :
      (records.map (fun car =>
        ({ id := car.id, path := car.path.raw, make := car.make, model := car.model,
           year := car.year, random_id := car.random_id, specs := car.specs }
          : RecordJson))).map (fun entry =>
        ({ id := entry.id, path := { raw := entry.path }, make := entry.make,
           model := entry.model, year := entry.year, random_id := entry.random_id,
           specs := entry.specs } : CarImage)) = records := by
    rw [List.map_map]
    exact List.map_id'' (fun car => rfl) records
  rw [load_from_cache]
  rw [if_pos ⟨rfl, rfl⟩]
  simp only [DatasetIndex.to_json_serializable, _build_dataset_index]
  rw [hmap]
  rw [if_neg (by simpa using h)]

theorem claim6_witness :
    load_from_cache
        ((_build_dataset_index [hondaCivic2015] "c" "t").to_json_serializable "abc")
        "abc" "c" "t"
      = some (_build_dataset_index [hondaCivic2015] "c" "t") :=
  claim6_cache_roundtrip [hondaCivic2015] "c" "t" "c" "t" "abc" (by simp)

instance : IsTotal Path pathLe := ⟨fun p q => le_total p.raw q.raw⟩

instance : IsTrans Path pathLe := ⟨fun _ _ _ hab hbc => le_trans hab hbc⟩

instance : IsAntisymm Path pathLe :=
  ⟨fun a b hab hba => by
    cases a
    cases b
    exact congrArg Path.mk (le_antisymm hab hba)⟩

/-- Claim C5: the dataset digest is invariant under permutations of
the discovered path list: the digest depends only on the multiset of
paths (with the metadata the stat capability reports), not on
discovery order. -/
theorem claim5_digest_order_independent (stat : Path → Option FileStat)
    (paths paths' : List Path) (h : paths.Perm paths') :
    _compute_digest stat paths = _compute_digest stat paths' := by
  have hs : paths.insertionSort pathLe = paths'.insertionSort pathLe :=
    List.eq_of_perm_of_sorted
      ((List.perm_insertionSort pathLe paths).trans
        (h.trans (List.perm_insertionSort pathLe paths').symm))
      (List.sorted_insertionSort pathLe paths)
      (List.sorted_insertionSort pathLe paths')
  rw [_compute_digest, _compute_digest, hs]

theorem claim5_witness :
    ([pathB, pathA] : List Path).Perm [pathA, pathB]
    ∧ _compute_digest demoStat [pathB, pathA] = _compute_digest demoStat [pathA, pathB] := by
  have h : ([pathB, pathA] : List Path).Perm [pathA, pathB] := List.Perm.swap pathA pathB []
  exact ⟨h, claim5_digest_order_independent demoStat [pathB, pathA] [pathA, pathB] h⟩

theorem zip_take_length {α β : Type} (ks : List α) (l : List β) :
    ks.zip (l.take ks.length) = ks.zip l := by
  induction ks generalizing l with
  | nil => simp
  | cons k ks ih => cases l <;> simp [ih]

theorem spec_lookup_first_three (a b c : String) (rest : List String) :
    (SPEC_KEYS.zip ((a :: b :: c :: rest).take SPEC_KEYS.length)).lookup "make" = some a
    ∧ (SPEC_KEYS.zip ((a :: b :: c :: rest).take SPEC_KEYS.length)).lookup "model" = some b
    ∧ (SPEC_KEYS.zip ((a :: b :: c :: rest).take SPEC_KEYS.length)).lookup "year" = some c := by
  rw [zip_take_length]
  refine ⟨?_, ?_, ?_⟩ <;> simp +decide [SPEC_KEYS, List.lookup]

/-- Claim C4: `parse_filename` succeeds exactly when the stem splits
on underscores into at least seventeen tokens whose third token parses
as an integer (otherwise it returns nothing, with no exception
escaping), and on success the id is the full stem, make, model and
year come from the first three tokens, and the random suffix is the
seventeenth token. -/
theorem claim4_parse_contract (p : Path) :
    ((parse_filename p).isSome = true ↔
      (17 ≤ (pySplit '_' p.stem).length
        ∧ (pythonInt? ((pySplit '_' p.stem).getD 2 "")).isSome = true))
    ∧ (∀ car, parse_filename p = some car →
        car.id = p.stem
        ∧ car.make = (pySplit '_' p.stem).getD 0 ""
        ∧ car.model = (pySplit '_' p.stem).getD 1 ""
        ∧ pythonInt? ((pySplit '_' p.stem).getD 2 "") = some car.year
        ∧ car.random_id = (pySplit '_' p.stem).getD 16 "") := by
  by_cases hlen : (pySplit '_' p.stem).length < 17
  · have hnone : parse_filename p = none := by
      rw [parse_filename, if_pos (by simpa [TOKEN_COUNT, SPEC_KEYS] using hlen)]
    rw [hnone]
    constructor
    · simp
      omega
    · intro car hcar
      simp at hcar
  · rcases hsplit : pySplit '_' p.stem with _ | ⟨a, _ | ⟨b, _ | ⟨c, rest⟩⟩⟩ <;>
      rw [hsplit] at hlen <;> try simp at hlen
    obtain ⟨hma, hmo, hyr⟩ := spec_lookup_first_three a b c rest
    have hbody : parse_filename p
        = match pythonInt? c with
          | none => none
          | some year =>
            some { id := p.stem, path := p,
                   make := a, model := b, year := year,
                   random_id := (a :: b :: c :: rest).getD SPEC_KEYS.length "",
                   specs := SPEC_KEYS.zip ((a :: b :: c :: rest).take SPEC_KEYS.length) } := by
      rw [parse_filename, if_neg (by rw [hsplit]; simp [TOKEN_COUNT, SPEC_KEYS]; omega)]
      rw [hsplit]
      simp only [hma, hmo, hyr, Option.getD_some]
    rcases hint : pythonInt? c with _ | year
    · rw [hint] at hbody
      constructor
      · rw [hbody]
        simp [hint]
      · intro car hcar
        rw [hbody] at hcar
        simp at hcar
    · rw [hint] at hbody
      constructor
      · rw [hbody]
        simp [hint]
        omega
      · intro car hcar
        rw [hbody] at hcar
        rw [Option.some_inj] at hcar
        subst hcar
        refine ⟨rfl, by simp, by simp, by simp [hint], by simp [SPEC_KEYS]⟩

theorem claim4_witness :
    parse_filename demoPath = some demoParsed
    ∧ demoParsed.id = demoPath.stem
    ∧ demoParsed.make = (pySplit '_' demoPath.stem).getD 0 ""
    ∧ demoParsed.model = (pySplit '_' demoPath.stem).getD 1 ""
    ∧ pythonInt? ((pySplit '_' demoPath.stem).getD 2 "") = some demoParsed.year
    ∧ demoParsed.random_id = (pySplit '_' demoPath.stem).getD 16 "" := by
  have h : parse_filename demoPath = some demoParsed := by decide
  exact ⟨h, (claim4_parse_contract demoPath).2 demoParsed h⟩

theorem length_le_card_of_ids_subset (pool : List CarImage) (used : Finset String)
    (hnodup : (pool.map CarImage.id).Nodup) (hsub : ∀ c ∈ pool, c.id ∈ used) :
    pool.length ≤ used.card := by
  have h1 : (pool.map CarImage.id).toFinset ⊆ used := by
    intro x hx
    rw [List.mem_toFinset, List.mem_map] at hx
    obtain ⟨c, hc, rfl⟩ := hx
    exact hsub c hc
  calc pool.length = (pool.map CarImage.id).length := by simp
    _ = (pool.map CarImage.id).toFinset.card := (List.toFinset_card_of_nodup hnodup).symm
    _ ≤ used.card := Finset.card_le_card h1

/-- Claim C9 (amended with the distinct-id invariant of the data
model): on a non-empty pool of records with pairwise-distinct ids and
any draw capability that picks pool members, `_select_car` always
returns a record; in particular when every pool id is already used,
the used-id set is cleared (the returned set is empty) instead of the
selection failing. -/
theorem claim9_select_total (choice : Nat → List CarImage → CarImage)
    (pool : List CarImage) (used0 : Finset String)
    (hpool : pool ≠ []) (hchoice : ∀ k, choice k pool ∈ pool)
    (hnodup : (pool.map CarImage.id).Nodup) :
    (∃ car used', _select_car choice pool used0 = Except.ok (car, used'))
    ∧ ((∀ c ∈ pool, c.id ∈ used0) →
        ∃ car, _select_car choice pool used0 = Except.ok (car, ∅)) := by
  have hne : pool.isEmpty = false := by
    cases pool
    · exact absurd rfl hpool
    · rfl
  by_cases hcl : (pool.length : Int) - (used0.card : Int) ≤ 0
  · -- the used set is cleared; the very first random draw is fresh
    have hsel : _select_car choice pool used0 = Except.ok (choice 255 pool, ∅) := by
      rw [_select_car, if_neg (by simp [hne])]
      rw [if_pos hcl]
      rfl
    exact ⟨⟨_, _, hsel⟩, fun _ => ⟨_, hsel⟩⟩
  · -- the used set is kept, and some pool member has an unused id
    have hcard : used0.card < pool.length := by omega
    have hex : ∃ c ∈ pool, c.id ∉ used0 := by
      by_contra hall
      push_neg at hall
      exact absurd (length_le_card_of_ids_subset pool used0 hnodup hall) (by omega)
    have hsel : ∃ car, _select_car choice pool used0 = Except.ok (car, used0) := by
      rw [_select_car, if_neg (by simp [hne])]
      rw [if_neg hcl]
      rcases htr : try_random choice pool used0 256 with _ | car
      · obtain ⟨c, hc, hcu⟩ := hex
        have hfind : (pool.find? (fun c => decide (c.id ∉ used0))).isSome = true := by
          rw [List.find?_isSome]
          exact ⟨c, hc, by simpa using hcu⟩
        rcases hf : pool.find? (fun c => decide (c.id ∉ used0)) with _ | car
        · rw [hf] at hfind
          simp at hfind
        · exact ⟨car, by simp only [htr, hf]⟩
      · exact ⟨car, by simp only [htr]⟩
    obtain ⟨car, hcar⟩ := hsel
    refine ⟨⟨car, used0, hcar⟩, fun hall => ?_⟩
    exact absurd (length_le_card_of_ids_subset pool used0 hnodup hall) (by omega)

theorem claim9_witness :
    (([hondaCivic2015, hondaCivic2016] : List CarImage) ≠ []
      ∧ (∀ c ∈ ([hondaCivic2015, hondaCivic2016] : List CarImage),
          c.id ∈ ({hondaCivic2015.id, hondaCivic2016.id} : Finset String)))
    ∧ ∃ car, _select_car (fun _ _ => hondaCivic2015) [hondaCivic2015, hondaCivic2016]
        {hondaCivic2015.id, hondaCivic2016.id} = Except.ok (car, ∅) := by
  refine ⟨⟨by decide, by decide⟩, ?_⟩
  exact (claim9_select_total (fun _ _ => hondaCivic2015) [hondaCivic2015, hondaCivic2016]
    {hondaCivic2015.id, hondaCivic2016.id} (by decide)
    (fun _ => List.mem_cons_self _ _) (by decide)).2 (by decide)

set_option maxRecDepth 8000 in
/-- Counterexample to claim C9 as stated: with a non-empty pool whose
two entries share one id and that id already used, the pool is not
exhausted by the used-set size test, no clearing happens, and the
selection does reach its failure branch. -/
theorem claim9_counterexample :
    _select_car (fun _ _ => hondaCivic2015) [hondaCivic2015, hondaCivic2015]
        {hondaCivic2015.id}
      = Except.error "Unable to select a new car for the question." := by
  rfl

theorem take_pool_inv (records : List CarImage) (correct : CarImage) (mode : QuizMode)
    (m : Nat) (hrec : (records.map CarImage.id).Nodup) :
    ∀ (pool : List CarImage) (st : GenState),
      (∀ c ∈ pool, c ∈ records ∧ c.id ≠ correct.id) →
      GenInv records correct mode m st →
      GenInv records correct mode m (take_pool mode m st pool) := by
  intro pool
  induction pool with
  | nil =>
    intro st _ hinv
    simpa [take_pool] using hinv
  | cons car rest ih =>
    intro st hpool hinv
    simp only [take_pool]
    by_cases hq : st.distractors.length ≥ m
    · simp only [if_pos hq]
      exact hinv
    · simp only [if_neg hq]
      by_cases hl : format_label car mode ∈ st.seen_labels
      · simp only [if_pos hl]
        exact ih st (fun c hc => hpool c (List.mem_cons_of_mem _ hc)) hinv
      · simp only [if_neg hl]
        have hcar := hpool car (List.mem_cons_self _ _)
        apply ih _ (fun c hc => hpool c (List.mem_cons_of_mem _ hc))
        obtain ⟨hmem, hnd, hne, hlab, hids, hlen⟩ := hinv
        have hnotin : car.id ∉ st.distractors.map CarImage.id := by
          intro hmm
          rw [List.mem_map] at hmm
          obtain ⟨d, hd, hdid⟩ := hmm
          have hdc : d = car :=
            List.inj_on_of_nodup_map hrec (hmem d hd) hcar.1 hdid
          exact hl (hdc ▸ hlab d hd)
        refine ⟨?_, ?_, ?_, ?_, ?_, ?_⟩
        · intro d hd
          rcases List.mem_append.mp hd with h | h
          · exact hmem d h
          · rw [List.mem_singleton] at h
            exact h ▸ hcar.1
        · rw [List.map_append]
          simp [List.nodup_append, hnd, hnotin]
        · intro d hd
          rcases List.mem_append.mp hd with h | h
          · exact hne d h
          · rw [List.mem_singleton] at h
            exact h ▸ hcar.2
        · intro d hd
          rcases List.mem_append.mp hd with h | h
          · exact Finset.mem_insert_of_mem (hlab d h)
          · rw [List.mem_singleton] at h
            exact h ▸ Finset.mem_insert_self _ _
        · show insert car.id st.seen_ids = _
          rw [hids, List.map_append]
          ext x
          simp [or_comm, or_assoc, or_left_comm]
        · show (st.distractors ++ [car]).length ≤ m
          simp only [List.length_append, List.length_cons, List.length_nil]
          omega

theorem run_pools_inv (records : List CarImage) (correct : CarImage) (mode : QuizMode)
    (m : Nat) (hrec : (records.map CarImage.id).Nodup)
    (shuffle : Nat → List CarImage → List CarImage)
    (hperm : ∀ k l, (shuffle k l).Perm l) :
    ∀ (pools : List (List CarImage)) (k : Nat) (st : GenState),
      (∀ pool ∈ pools, ∀ c ∈ pool, c ∈ records ∧ c.id ≠ correct.id) →
      GenInv records correct mode m st →
      GenInv records correct mode m (run_pools mode m st shuffle k pools) := by
  intro pools
  induction pools with
  | nil =>
    intro k st _ hinv
    simpa [run_pools] using hinv
  | cons pool rest ih =>
    intro k st hp hinv
    simp only [run_pools]
    have h1 : GenInv records correct mode m (take_pool mode m st (shuffle k pool)) :=
      take_pool_inv records correct mode m hrec (shuffle k pool) st
        (fun c hc => hp pool (List.mem_cons_self _ _) c ((hperm k pool).mem_iff.mp hc))
        hinv
    by_cases hq : (take_pool mode m st (shuffle k pool)).distractors.length ≥ m
    · simp only [if_pos hq]
      exact h1
    · simp only [if_neg hq]
      exact ih (k + 1) _ (fun pl hpl => hp pl (List.mem_cons_of_mem _ hpl)) h1

theorem fill_remaining_distractors (m : Nat) :
    ∀ (rem : List CarImage) (st : GenState),
      (fill_remaining m st rem).distractors
        = st.distractors ++ rem.take (m - st.distractors.length) := by
  intro rem
  induction rem with
  | nil =>
    intro st
    simp [fill_remaining]
  | cons car rest ih =>
    intro st
    simp only [fill_remaining]
    by_cases hq : st.distractors.length ≥ m
    · simp [if_pos hq, Nat.sub_eq_zero_of_le hq]
    · simp only [if_neg hq]
      rw [ih]
      have h1 : m - st.distractors.length = (m - (st.distractors.length + 1)) + 1 := by
        omega
      rw [h1, List.take_succ_cons]
      simp

theorem length_filter_notin_ge (records : List CarImage) (S : Finset String)
    (hrec : (records.map CarImage.id).Nodup) :
    records.length ≤ (records.filter (fun c => decide (c.id ∉ S))).length + S.card := by
  have hperm := List.filter_append_perm (fun c => decide (c.id ∈ S)) records
  have hlen := hperm.length_eq
  rw [List.length_append] at hlen
  have hnot : (records.filter fun c => !decide (c.id ∈ S))
      = records.filter (fun c => decide (c.id ∉ S)) := by
    apply List.filter_congr
    intro c _
    simp
  rw [hnot] at hlen
  have hin : (records.filter (fun c => decide (c.id ∈ S))).length ≤ S.card := by
    apply length_le_card_of_ids_subset _ S
    · exact List.Nodup.sublist
        (List.Sublist.map CarImage.id (List.filter_sublist records)) hrec
    · intro c hc
      have := (List.mem_filter.mp hc).2
      simpa using this
  omega

theorem final_list_props
    (records : List CarImage) (correct : CarImage) (mode : QuizMode) (m : Nat)
    (hrec : (records.map CarImage.id).Nodup)
    (st : GenState) (hinv : GenInv records correct mode m st)
    (rem' : List CarImage)
    (hrem : rem'.Perm (records.filter (fun c => decide (c.id ∉ st.seen_ids))))
    (hm : m + 1 ≤ records.length) :
    ((if st.distractors.length < m then fill_remaining m st rem'
        else st).distractors.take m).length = m
    ∧ ((correct :: (if st.distractors.length < m then fill_remaining m st rem'
        else st).distractors.take m).map CarImage.id).Nodup
    ∧ ((correct :: (if st.distractors.length < m then fill_remaining m st rem'
        else st).distractors.take m).map CarImage.id).count correct.id = 1 := by
  obtain ⟨hmem, hnd, hne, hlab, hids, hlen⟩ := hinv
  have hS : st.seen_ids.card ≤ 1 + st.distractors.length := by
    rw [hids]
    calc (insert correct.id (st.distractors.map CarImage.id).toFinset).card
        ≤ (st.distractors.map CarImage.id).toFinset.card + 1 := Finset.card_insert_le _ _
      _ = (st.distractors.map CarImage.id).length + 1 := by
          rw [List.toFinset_card_of_nodup hnd]
      _ = 1 + st.distractors.length := by
          rw [List.length_map]
          omega
  have hremlen : m - st.distractors.length ≤ rem'.length := by
    have h1 := length_filter_notin_ge records st.seen_ids hrec
    have h2 := hrem.length_eq
    omega
  have hdist :
      ∃ tail : List CarImage,
        (if st.distractors.length < m then fill_remaining m st rem'
          else st).distractors.take m = st.distractors ++ tail
        ∧ (st.distractors ++ tail).length = m
        ∧ (∀ c ∈ tail, c.id ∉ st.seen_ids)
        ∧ (List.Sublist tail rem' ∨ tail = []) := by
    by_cases hlt : st.distractors.length < m
    · rw [if_pos hlt, fill_remaining_distractors]
      have htl : (rem'.take (m - st.distractors.length)).length
          = m - st.distractors.length := by
        rw [List.length_take]
        omega
      have hfull : (st.distractors ++ rem'.take (m - st.distractors.length)).length = m := by
        rw [List.length_append, htl]
        omega
      refine ⟨rem'.take (m - st.distractors.length), ?_, hfull, ?_, Or.inl (List.take_sublist _ _)⟩
      · rw [List.take_of_length_le (le_of_eq hfull)]
      · intro c hc
        have hcrem : c ∈ rem' := List.mem_of_mem_take hc
        have := (List.mem_filter.mp (hrem.mem_iff.mp hcrem)).2
        simpa using this
    · rw [if_neg hlt]
      have heq : st.distractors.length = m := by omega
      refine ⟨[], ?_, by simpa using heq, by simp, Or.inr rfl⟩
      rw [List.append_nil, List.take_of_length_le (le_of_eq heq)]
  obtain ⟨tail, hdeq, hdlen, htail, hsubor⟩ := hdist
  rw [hdeq]
  have htail_ne : ∀ c ∈ tail, c.id ≠ correct.id := by
    intro c hc heq
    exact htail c hc (hids ▸ (heq ▸ Finset.mem_insert_self _ _))
  have htail_notdist : ∀ c ∈ tail, c.id ∉ st.distractors.map CarImage.id := by
    intro c hc hmm
    exact htail c hc (hids ▸ Finset.mem_insert_of_mem (List.mem_toFinset.mpr hmm))
  have htail_nd : (tail.map CarImage.id).Nodup := by
    rcases hsubor with hsub | rfl
    · have hfil : ((records.filter (fun c => decide (c.id ∉ st.seen_ids))).map
          CarImage.id).Nodup :=
        List.Nodup.sublist (List.Sublist.map CarImage.id (List.filter_sublist records))
          hrec
      have hrem_nd : (rem'.map CarImage.id).Nodup :=
        ((hrem.map CarImage.id).nodup_iff).mpr hfil
      exact List.Nodup.sublist (List.Sublist.map CarImage.id hsub) hrem_nd
    · simp
  have hall_nd : ((st.distractors ++ tail).map CarImage.id).Nodup := by
    rw [List.map_append]
    rw [List.nodup_append]
    refine ⟨hnd, htail_nd, ?_⟩
    intro x hx hx2
    rw [List.mem_map] at hx2
    obtain ⟨c, hc, rfl⟩ := hx2
    exact htail_notdist c hc hx
  have hall_ne : correct.id ∉ (st.distractors ++ tail).map CarImage.id := by
    rw [List.map_append]
    intro hx
    rcases List.mem_append.mp hx with h | h
    · rw [List.mem_map] at h
      obtain ⟨c, hc, hcid⟩ := h
      exact hne c hc hcid
    · rw [List.mem_map] at h
      obtain ⟨c, hc, hcid⟩ := h
      exact htail_ne c hc hcid
  refine ⟨?_, ?_, ?_⟩
  · exact hdlen
  · rw [List.map_cons]
    exact List.Nodup.cons hall_ne hall_nd
  · rw [List.map_cons, List.count_cons_self]
    rw [List.count_eq_zero.mpr hall_ne]

theorem get_by_make_sub (records : List CarImage) (cd td mk : String) (c : CarImage)
    (hc : c ∈ (_build_dataset_index records cd td).get_by_make mk) : c ∈ records := by
  rw [DatasetIndex.get_by_make] at hc
  have : (_build_dataset_index records cd td).by_make
      = buildGroups (fun r => r.make) records := rfl
  rw [this, lookupGroup_buildGroups] at hc
  exact (List.mem_filter.mp hc).1

theorem get_by_make_model_sub (records : List CarImage) (cd td mk md : String)
    (c : CarImage)
    (hc : c ∈ (_build_dataset_index records cd td).get_by_make_model mk md) :
    c ∈ records := by
  rw [DatasetIndex.get_by_make_model] at hc
  have : (_build_dataset_index records cd td).by_make_model
      = buildGroups (fun r => (r.make, r.model)) records := rfl
  rw [this, lookupGroup_buildGroups] at hc
  exact (List.mem_filter.mp hc).1

theorem gen_pools_sound (records : List CarImage) (cd td : String) (correct : CarImage)
    (mode : QuizMode) :
    ∀ pool ∈ gen_pools correct (_build_dataset_index records cd td) mode,
      ∀ c ∈ pool, c ∈ records ∧ c.id ≠ correct.id := by
  intro pool hp c hc
  rw [gen_pools, List.mem_append] at hp
  have hidne : ∀ (P : Prop), (c.id ∉ ({correct.id} : Finset String) ∧ P) →
      c.id ≠ correct.id := by
    intro P h
    simpa using h.1
  rcases hp with hp | hp
  · cases mode <;> simp only [tier_pools, List.mem_cons, List.not_mem_nil, or_false,
      List.mem_singleton] at hp
    · subst hp
      obtain ⟨hbase, hpred⟩ := List.mem_filter.mp hc
      exact ⟨hbase, hidne _ (of_decide_eq_true hpred)⟩
    · rcases hp with rfl | rfl
      · obtain ⟨hbase, hpred⟩ := List.mem_filter.mp hc
        exact ⟨get_by_make_model_sub records cd td correct.make correct.model c hbase,
          hidne _ (of_decide_eq_true hpred)⟩
      · obtain ⟨hbase, hpred⟩ := List.mem_filter.mp hc
        exact ⟨get_by_make_sub records cd td correct.make c hbase,
          hidne _ (of_decide_eq_true hpred)⟩
    · rcases hp with rfl | rfl
      · obtain ⟨hbase, hpred⟩ := List.mem_filter.mp hc
        exact ⟨get_by_make_model_sub records cd td correct.make correct.model c hbase,
          hidne _ (of_decide_eq_true hpred)⟩
      · obtain ⟨hbase, hpred⟩ := List.mem_filter.mp hc
        exact ⟨get_by_make_sub records cd td correct.make c hbase,
          hidne _ (of_decide_eq_true hpred)⟩
  · rw [List.mem_singleton] at hp
    subst hp
    obtain ⟨hbase, hpred⟩ := List.mem_filter.mp hc
    refine ⟨hbase, ?_⟩
    simpa using of_decide_eq_true hpred

theorem gen_fallback_props (records : List CarImage) (cd td : String)
    (correct : CarImage) (mode : QuizMode) (m : Nat)
    (shuffle : Nat → List CarImage → List CarImage)
    (hrec : (records.map CarImage.id).Nodup)
    (hperm : ∀ k l, (shuffle k l).Perm l)
    (hm : m + 1 ≤ records.length) :
    ((gen_fallback_state correct (_build_dataset_index records cd td) mode m
        shuffle).distractors.take m).length = m
    ∧ ((correct :: (gen_fallback_state correct (_build_dataset_index records cd td) mode m
        shuffle).distractors.take m).map CarImage.id).Nodup
    ∧ ((correct :: (gen_fallback_state correct (_build_dataset_index records cd td) mode m
        shuffle).distractors.take m).map CarImage.id).count correct.id = 1 := by
  have hinv0 : GenInv records correct mode m
      ⟨[], {correct.id}, {format_label correct mode}⟩ := by
    refine ⟨?_, ?_, ?_, ?_, ?_, ?_⟩ <;> simp
  have hrun : GenInv records correct mode m
      (gen_tier_state correct (_build_dataset_index records cd td) mode m shuffle) := by
    rw [gen_tier_state]
    exact run_pools_inv records correct mode m hrec shuffle hperm _ 0 _
      (gen_pools_sound records cd td correct mode) hinv0
  have hfin := final_list_props records correct mode m hrec
    (gen_tier_state correct (_build_dataset_index records cd td) mode m shuffle) hrun
    (shuffle (gen_pools correct (_build_dataset_index records cd td) mode).length
      ((_build_dataset_index records cd td).get_random_pool.filter
        (fun car => decide (car.id ∉ (gen_tier_state correct
          (_build_dataset_index records cd td) mode m shuffle).seen_ids))))
    (hperm _ _) hm
  simpa only [gen_fallback_state] using hfin

/-- Claim C1 (amended with the hypotheses the counterexample forces,
matching the stated data-model invariant of globally unique record
ids): for every precision mode, every n ≥ 2, every shuffling behaviour
of the random source, and every index built from a record list with
pairwise-distinct ids and at least n records, `generate_choices`
returns exactly n choices whose ids are pairwise distinct and contain
the correct id exactly once. -/
theorem claim1_choice_set (records : List CarImage) (cd td : String)
    (correct : CarImage) (mode : QuizMode) (n : Int)
    (shuffle : Nat → List CarImage → List CarImage)
    (hperm : ∀ k l, (shuffle k l).Perm l)
    (hnodup : (records.map CarImage.id).Nodup)
    (hn : 2 ≤ n) (hlen : n ≤ (records.length : Int)) :
    ∃ choices,
      generate_choices correct (_build_dataset_index records cd td) mode n shuffle
        = Except.ok choices
      ∧ (choices.length : Int) = n
      ∧ (choices.map AnswerChoice.id).Nodup
      ∧ (choices.map AnswerChoice.id).count correct.id = 1 := by
  have h2 : ¬ n < 2 := by omega
  have hm : (n - 1).toNat + 1 ≤ records.length := by omega
  obtain ⟨hL, hND, hCNT⟩ := gen_fallback_props records cd td correct mode
    ((n - 1).toNat) shuffle hnodup hperm hm
  refine ⟨(shuffle ((gen_pools correct (_build_dataset_index records cd td) mode).length + 1)
      (correct :: (gen_fallback_state correct (_build_dataset_index records cd td) mode
        ((n - 1).toNat) shuffle).distractors.take ((n - 1).toNat))).map
      (fun car => ({ id := car.id, label := format_label car mode, car := car }
        : AnswerChoice)), ?_, ?_, ?_, ?_⟩
  · rw [generate_choices, if_neg h2]
  · rw [List.length_map, (hperm _ _).length_eq, List.length_cons, hL]
    omega
  · have hcomp : (AnswerChoice.id ∘ (fun car =>
        ({ id := car.id, label := format_label car mode, car := car } : AnswerChoice)))
        = CarImage.id := rfl
    rw [List.map_map, hcomp]
    exact ((hperm _ _).map CarImage.id).nodup_iff.mpr hND
  · have hcomp : (AnswerChoice.id ∘ (fun car =>
        ({ id := car.id, label := format_label car mode, car := car } : AnswerChoice)))
        = CarImage.id := rfl
    rw [List.map_map, hcomp]
    rw [((hperm _ _).map CarImage.id).count_eq]
    exact hCNT

theorem claim1_witness :
    ∃ choices,
      generate_choices hondaCivic2015
          (_build_dataset_index [hondaCivic2015, hondaCivic2016] "cache" "thumbs")
          QuizMode.make_model_year 2 (fun _ l => l)
        = Except.ok choices
      ∧ (choices.length : Int) = 2
      ∧ (choices.map AnswerChoice.id).Nodup
      ∧ (choices.map AnswerChoice.id).count hondaCivic2015.id = 1 :=
  claim1_choice_set [hondaCivic2015, hondaCivic2016] "cache" "thumbs" hondaCivic2015
    QuizMode.make_model_year 2 (fun _ l => l) (fun _ l => List.Perm.refl l)
    (by decide) (by decide) (by decide)

/-- Counterexample to claim C1 as stated: a non-empty index holding
only the correct record cannot yield two choices; the call returns a
single choice instead of the requested two. -/
theorem claim1_counterexample :
    (generate_choices hondaCivic2015 (_build_dataset_index [hondaCivic2015] "" "")
        QuizMode.make 2 (fun _ l => l)).map List.length = Except.ok 1
    ∧ (1 : Nat) ≠ 2 :=
  ⟨rfl, by decide⟩

end CarPicker
